import Mathlib

/-!
# Verification of the covid-viz data pipeline

A shallow embedding of `src/covidviz/data.py`. Dataframes become lists of
structure values (one structure per row schema); pandas column operations
become Lean functions on those lists. Calendar dates are encoded as natural
numbers counting days since 2020-01-01 (so 2020-03-01 is day 60), which
preserves day ordering and day-difference arithmetic.
-/

/-- Day number of March `d`, 2020 (2020-03-01 = 60 days after 2020-01-01). -/
def marchDay (d : Nat) : Nat := 59 + d

/-- The fixed English → German state-name mapping (`STATE_MAPPER` in the source). -/
def STATE_MAPPER : List (String × String) :=
  [("Baden-Württemberg", "Baden-Württemberg"),
   ("Bavaria", "Bayern"),
   ("Berlin", "Berlin"),
   ("Brandenburg", "Brandenburg"),
   ("Bremen", "Bremen"),
   ("Hamburg", "Hamburg"),
   ("Hesse", "Hessen"),
   ("Lower Saxony", "Niedersachsen"),
   ("Mecklenburg-Vorpommern", "Mecklenburg-Vorpommern"),
   ("North Rhine-Westphalia", "Nordrhein-Westfalen"),
   ("Rhineland-Palatinate", "Rheinland-Pfalz"),
   ("Saarland", "Saarland"),
   ("Saxony", "Sachsen"),
   ("Saxony-Anhalt", "Sachsen-Anhalt"),
   ("Schleswig-Holstein", "Schleswig-Holstein"),
   ("Thuringia", "Thüringen")]

/-- One row of the global Google mobility CSV, with the columns the source
touches.  Missing values (`NaN`) are `none`. -/
structure MobilityCsvRow where
  country_region_code : String
  country_region : String
  sub_region_1 : Option String
  sub_region_2 : Option String
  date : Nat
  retail_and_recreation_percent_change_from_baseline : Option Int
  grocery_and_pharmacy_percent_change_from_baseline : Option Int
  parks_percent_change_from_baseline : Option Int
  transit_stations_percent_change_from_baseline : Option Int
  workplaces_percent_change_from_baseline : Option Int
  residential_percent_change_from_baseline : Option Int
deriving DecidableEq, Repr

/-- One row of the mobility fetcher's output (after rename / column drop /
state-name mapping).  `Bundesland` is `none` when the English name has no
entry in `STATE_MAPPER` (pandas `Series.map` yields `NaN` there). -/
structure MobilityRecord where
  Bundesland : Option String
  Meldedatum : Nat
  retail_and_recreation : Option Int
  grocery_and_pharmacy : Option Int
  parks : Option Int
  transit_stations : Option Int
  workplaces : Option Int
  residential : Option Int
deriving DecidableEq, Repr

/-- The `.query("country_region_code == 'DE' and not sub_region_1.isna()")`
step of `get_google_mobility_data` (data.py line 111). -/
def google_mobility_query (rows : List MobilityCsvRow) : List MobilityCsvRow :=
  rows.filter (fun x => x.country_region_code = "DE" ∧ x.sub_region_1.isSome)

/-- `get_google_mobility_data` (data.py lines 101-119): filter the global
feed, rename `sub_region_1`/`date`, drop the country and `sub_region_2`
columns, and map the state names through `STATE_MAPPER`. -/
def get_google_mobility_data (rows : List MobilityCsvRow) : List MobilityRecord :=
  (google_mobility_query rows).map (fun x =>
    { Bundesland := x.sub_region_1.bind (fun s => STATE_MAPPER.lookup s),
      Meldedatum := x.date,
      retail_and_recreation := x.retail_and_recreation_percent_change_from_baseline,
      grocery_and_pharmacy := x.grocery_and_pharmacy_percent_change_from_baseline,
      parks := x.parks_percent_change_from_baseline,
      transit_stations := x.transit_stations_percent_change_from_baseline,
      workplaces := x.workplaces_percent_change_from_baseline,
      residential := x.residential_percent_change_from_baseline })

/-- A second-level-subregion row of the global feed (country DE,
`sub_region_1` and `sub_region_2` both present). -/
def secondLevelRow : MobilityCsvRow :=
  { country_region_code := "DE",
    country_region := "Germany",
    sub_region_1 := some "Bavaria",
    sub_region_2 := some "München",
    date := marchDay 10,
    retail_and_recreation_percent_change_from_baseline := some (-20),
    grocery_and_pharmacy_percent_change_from_baseline := some 5,
    parks_percent_change_from_baseline := none,
    transit_stations_percent_change_from_baseline := none,
    workplaces_percent_change_from_baseline := none,
    residential_percent_change_from_baseline := none }

/-- C2 counterexample: a row whose second-level subregion field is present is
nevertheless kept by the mobility fetcher's filter, contradicting the claim
that such rows are excluded. -/
theorem google_mobility_keeps_second_level_rows :
    google_mobility_query [secondLevelRow] = [secondLevelRow] ∧
      secondLevelRow.sub_region_2 = some "München" ∧
      (get_google_mobility_data [secondLevelRow]).length = 1 := by
  refine ⟨?_, rfl, rfl⟩
  rfl

/-- C2 (amended): a row of the global feed is kept by the mobility fetcher's
filter iff its country code is `"DE"` and its first-level subregion field is
present; the second-level subregion field is not consulted (its column is
merely dropped afterwards). -/
theorem google_mobility_query_mem (rows : List MobilityCsvRow) (x : MobilityCsvRow) :
    x ∈ google_mobility_query rows ↔
      x ∈ rows ∧ x.country_region_code = "DE" ∧ x.sub_region_1.isSome := by
  simp [google_mobility_query, List.mem_filter, and_assoc]

/-- The six activity columns of a unified row, in the source's column order
(`self.activity_cols` in `PlotData.get_df`). -/
def activity_values (x : MobilityRecord) : List (Option Int) :=
  [x.retail_and_recreation, x.grocery_and_pharmacy, x.parks,
   x.transit_stations, x.workplaces, x.residential]

/-- `total_activity` (data.py line 75): the sum of the non-null activity
percentages (pandas `sum(axis=1)` skips `NaN`), divided by 100. -/
def total_activity (x : MobilityRecord) : ℚ :=
  (((activity_values x).filterMap id).sum : ℚ) / 100

/-- `total_neg_activity` (data.py lines 76-80): sum of the absolute values of
the strictly negative activity percentages of the row. -/
def total_neg_activity (x : MobilityRecord) : Int :=
  ((((activity_values x).filterMap id).filter (fun v => v < 0)).map (fun v => |v|)).sum

/-- `total_pos_activity` (data.py lines 81-85): sum of the absolute values of
the strictly positive activity percentages of the row. -/
def total_pos_activity (x : MobilityRecord) : Int :=
  ((((activity_values x).filterMap id).filter (fun v => 0 < v)).map (fun v => |v|)).sum

/-- The C9 scenario row: retail = -40, grocery = +10, parks = -5, the other
three categories null. -/
def scenarioC9Row : MobilityRecord :=
  { Bundesland := some "Bayern", Meldedatum := marchDay 10,
    retail_and_recreation := some (-40), grocery_and_pharmacy := some 10,
    parks := some (-5), transit_stations := none, workplaces := none,
    residential := none }

/-- C9: for the scenario row (retail -40, grocery +10, parks -5, rest null)
the derived aggregates are total_neg_activity = 45, total_pos_activity = 10,
and total_activity = (-40+10-5)/100 = -0.35. -/
theorem mobility_aggregates_scenario :
    total_neg_activity scenarioC9Row = 45 ∧ total_pos_activity scenarioC9Row = 10 ∧
      total_activity scenarioC9Row = -(35 : ℚ) / 100 := by
  refine ⟨by decide, by decide, ?_⟩
  have h : ((activity_values scenarioC9Row).filterMap id).sum = (-35 : Int) := by decide
  rw [total_activity, h]
  norm_num

/-- A unified row with no mobility data at all (an outer-join row coming only
from the infection side). -/
def noMobilityRow : MobilityRecord :=
  { Bundesland := some "Berlin", Meldedatum := marchDay 10,
    retail_and_recreation := none, grocery_and_pharmacy := none,
    parks := none, transit_stations := none, workplaces := none,
    residential := none }

/-- C10: on every unified row the negative- and positive-activity aggregates
are non-negative, and a row with no non-null mobility value gets 0 (not null)
for all three aggregates. -/
theorem mobility_aggregates_nonneg (x : MobilityRecord) :
    0 ≤ total_neg_activity x ∧ 0 ≤ total_pos_activity x ∧
      ((∀ v ∈ activity_values x, v = none) →
        total_activity x = 0 ∧ total_neg_activity x = 0 ∧ total_pos_activity x = 0) := by
  refine ⟨?_, ?_, ?_⟩
  · apply List.sum_nonneg
    intro a ha
    obtain ⟨v, _, rfl⟩ := List.mem_map.mp ha
    exact abs_nonneg v
  · apply List.sum_nonneg
    intro a ha
    obtain ⟨v, _, rfl⟩ := List.mem_map.mp ha
    exact abs_nonneg v
  · intro h
    have hnil : (activity_values x).filterMap id = [] := by
      apply List.filterMap_eq_nil_iff.mpr
      intro a ha
      simp [h a ha]
    rw [total_activity, total_neg_activity, total_pos_activity, hnil]
    norm_num

/-- C10 witness: the theorem applied to the all-null row. -/
theorem mobility_aggregates_nonneg_w :
    0 ≤ total_neg_activity noMobilityRow ∧ 0 ≤ total_pos_activity noMobilityRow ∧
      (total_activity noMobilityRow = 0 ∧ total_neg_activity noMobilityRow = 0 ∧
        total_pos_activity noMobilityRow = 0) := by
  obtain ⟨h1, h2, h3⟩ := mobility_aggregates_nonneg noMobilityRow
  exact ⟨h1, h2, h3 (by decide)⟩

/-- One row of the local measures CSV, after the source's rename of its
`bundesland` column to `bundesland_code` (data.py line 250).  Parsed dates are
day numbers; `gueltig_bis` may be missing. -/
structure MeasureCsvRow where
  bundesland_code : String
  category : String
  datum_publ : Nat
  gueltig_ab : Nat
  gueltig_bis : Option Nat
  beschreibung : String
deriving DecidableEq, Repr

/-- One row of the code-to-name mapping CSV (columns `bundesland`, `short`). -/
structure MappingRow where
  bundesland : String
  short : String
deriving DecidableEq, Repr

/-- One measure record of the loader's output (columns selected and renamed
at data.py lines 258-269). -/
structure MeasureRecord where
  Bundesland : String
  Massnahme : String
  datum_publ : Nat
  gueltig_ab : Nat
  gueltig_bis : Option Nat
  beschreibung : String
deriving DecidableEq, Repr

/-- The output row `read_measure_data` builds from a measures row and a
matching mapping row. -/
def mkMeasureRecord (m : MeasureCsvRow) (mp : MappingRow) : MeasureRecord :=
  { Bundesland := mp.bundesland, Massnahme := m.category, datum_publ := m.datum_publ,
    gueltig_ab := m.gueltig_ab, gueltig_bis := m.gueltig_bis,
    beschreibung := m.beschreibung }

/-- `read_measure_data` (data.py lines 243-269): inner-join the measures table
with the code-to-name mapping on the region code.  A pandas inner merge emits,
for each left row in order, one output row per matching right row. -/
def read_measure_data (measures : List MeasureCsvRow) (mapping : List MappingRow) :
    List MeasureRecord :=
  measures.flatMap (fun m =>
    (mapping.filter (fun mp => mp.short = m.bundesland_code)).map
      (fun mp => mkMeasureRecord m mp))

/-- C8: a measures row whose region code has no entry in the mapping table
contributes nothing to the loader's output (it is silently dropped, no error
is possible in this total model), while a row whose code is mapped yields its
joined record in the output. -/
theorem read_measure_data_inner_join (measures : List MeasureCsvRow)
    (mapping : List MappingRow) (m : MeasureCsvRow) :
    ((∀ mp ∈ mapping, mp.short ≠ m.bundesland_code) →
        read_measure_data (m :: measures) mapping = read_measure_data measures mapping) ∧
      (m ∈ measures → ∀ mp ∈ mapping, mp.short = m.bundesland_code →
        mkMeasureRecord m mp ∈ read_measure_data measures mapping) := by
  constructor
  · intro h
    have hnil : mapping.filter (fun mp => mp.short = m.bundesland_code) = [] := by
      apply List.filter_eq_nil_iff.mpr
      intro mp hmp
      simpa using h mp hmp
    simp [read_measure_data, hnil]
  · intro hm mp hmp heq
    apply List.mem_flatMap.mpr
    refine ⟨m, hm, List.mem_map.mpr ⟨mp, ?_, rfl⟩⟩
    apply List.mem_filter.mpr
    exact ⟨hmp, by simpa using heq⟩

/-- C8 witness: with mapping table `[("Bayern", "BY")]`, the loader drops the
measure row coded `"XX"` and keeps the one coded `"BY"`. -/
theorem read_measure_data_inner_join_w :
    read_measure_data
        [{ bundesland_code := "XX", category := "Schulschließung", datum_publ := 74,
           gueltig_ab := 75, gueltig_bis := none, beschreibung := "x" },
         { bundesland_code := "BY", category := "Ausgangssperre", datum_publ := 74,
           gueltig_ab := 75, gueltig_bis := none, beschreibung := "y" }]
        [{ bundesland := "Bayern", short := "BY" }] =
      read_measure_data
        [{ bundesland_code := "BY", category := "Ausgangssperre", datum_publ := 74,
           gueltig_ab := 75, gueltig_bis := none, beschreibung := "y" }]
        [{ bundesland := "Bayern", short := "BY" }] ∧
      mkMeasureRecord
          { bundesland_code := "BY", category := "Ausgangssperre", datum_publ := 74,
            gueltig_ab := 75, gueltig_bis := none, beschreibung := "y" }
          { bundesland := "Bayern", short := "BY" } ∈
        read_measure_data
          [{ bundesland_code := "BY", category := "Ausgangssperre", datum_publ := 74,
             gueltig_ab := 75, gueltig_bis := none, beschreibung := "y" }]
          [{ bundesland := "Bayern", short := "BY" }] := by
  constructor
  · exact (read_measure_data_inner_join _ _ _).1 (by decide)
  · exact (read_measure_data_inner_join _ [{ bundesland := "Bayern", short := "BY" }] _).2
      (by simp) _ (by simp) (by decide)

/-- One raw case-report record as produced by `fetch_infection_data_from_rki`
(columns at data.py lines 210-219).  `Meldedatum` is the calendar day of the
record (the source converts epoch-milliseconds to a date; the day-bucketing
grouper only ever sees the calendar day).  `Neuinfektionen` is the raw
`AnzahlFall` integer, which carries no sign restriction. -/
structure RawRecord where
  Meldedatum : Nat
  Neuinfektionen : Int
  Geschlecht : String
  Altersgruppe : String
  Bundesland : String
deriving DecidableEq, Repr

/-- One row of the daily aggregation before the threshold join: the result of
`groupby(["Bundesland", Grouper("Meldedatum", freq="D")]).sum()` plus the
per-region cumulative sum (data.py lines 138-149). -/
structure DailyRow where
  Bundesland : String
  Meldedatum : Nat
  Neuinfektionen : Int
  infections_cumulative : Int
deriving DecidableEq, Repr

/-- The distinct regions of the raw records, in ascending order (pandas
`groupby` sorts its keys; `sort_index` keeps them sorted). -/
def regionsOf (recs : List RawRecord) : List String :=
  List.insertionSort (fun a b => a ≤ b) ((recs.map (fun x => x.Bundesland)).dedup)

/-- The distinct report days of region `r`, in ascending order. -/
def datesOf (recs : List RawRecord) (r : String) : List Nat :=
  List.insertionSort (fun a b => a ≤ b)
    (((recs.filter (fun x => x.Bundesland = r)).map (fun x => x.Meldedatum)).dedup)

/-- The `Neuinfektionen` day-bucket sum of region `r` on day `d`. -/
def daySum (recs : List RawRecord) (r : String) (d : Nat) : Int :=
  ((recs.filter (fun x => x.Bundesland = r ∧ x.Meldedatum = d)).map
    (fun x => x.Neuinfektionen)).sum

/-- Turn the date-ordered `(day, day-sum)` pairs of one region into daily rows
carrying the running cumulative sum (`transform(cumsum)`, data.py 145-148). -/
def cum_rows (r : String) : Int → List (Nat × Int) → List DailyRow
  | _, [] => []
  | acc, (d, s) :: rest =>
    { Bundesland := r, Meldedatum := d, Neuinfektionen := s,
      infections_cumulative := acc + s } :: cum_rows r (acc + s) rest

/-- The daily series of one region, dates ascending, with cumulative sums. -/
def regionSeries (recs : List RawRecord) (r : String) : List DailyRow :=
  cum_rows r 0 ((datesOf recs r).map (fun d => (d, daySum recs r d)))

/-- The daily bucketing and cumulative-sum stage of `prepare_daily_infections`
(data.py lines 138-149): all regions' series concatenated in ascending region
order, exactly the layout `sort_index().reset_index()` produces. -/
def daily_cases (recs : List RawRecord) : List DailyRow :=
  (regionsOf recs).flatMap (fun r => regionSeries recs r)

/-- One row of `prepare_daily_infections`' output: a daily row joined with its
region's threshold date and the signed day distance to it. -/
structure DaysRow where
  Bundesland : String
  Meldedatum : Nat
  Neuinfektionen : Int
  infections_cumulative : Int
  date_n_cases : Nat
  days_since_n_cases : Int
deriving DecidableEq, Repr

/-- The first day on which region `r`'s cumulative count reaches `n_cases`:
`df.query("infections_cumulative >= n").groupby("Bundesland").agg(min)` for
one region (data.py lines 229-231); `none` when the region never qualifies. -/
def date_n_cases_of (rows : List DailyRow) (r : String) (n_cases : Int) : Option Nat :=
  ((rows.filter (fun x => x.Bundesland = r ∧ n_cases ≤ x.infections_cumulative)).map
    (fun x => x.Meldedatum)).min?

/-- The output row of the threshold join: the daily row plus its region's
threshold date `t` and the signed day count `Meldedatum - t` (the
`.dt.days` of the date difference, data.py lines 234-240). -/
def mkDaysRow (x : DailyRow) (t : Nat) : DaysRow :=
  { Bundesland := x.Bundesland, Meldedatum := x.Meldedatum,
    Neuinfektionen := x.Neuinfektionen,
    infections_cumulative := x.infections_cumulative,
    date_n_cases := t,
    days_since_n_cases := (x.Meldedatum : Int) - (t : Int) }

/-- `add_days_since_n_cases` (data.py lines 227-240): merge the per-region
threshold date back onto the daily rows.  `df.merge` defaults to an inner
join, so a row whose region has no threshold date produces no output row;
matched rows keep their order and gain the signed day count. -/
def add_days_since_n_cases (rows : List DailyRow) (n_cases : Int) : List DaysRow :=
  rows.filterMap (fun x =>
    (date_n_cases_of rows x.Bundesland n_cases).map (fun t => mkDaysRow x t))

/-- `prepare_daily_infections` (data.py lines 137-151). -/
def prepare_daily_infections (recs : List RawRecord) (n_cases : Int) : List DaysRow :=
  add_days_since_n_cases (daily_cases recs) n_cases

/-- A raw record with every incidental column fixed, for concrete scenarios. -/
def mkRaw (r : String) (d : Nat) (n : Int) : RawRecord :=
  { Meldedatum := d, Neuinfektionen := n, Geschlecht := "M", Altersgruppe := "A00-A04",
    Bundesland := r }

/-- The C6 scenario input: region Bayern with raw records
(2020-03-01, 10), (2020-03-02, 15), (2020-03-03, 30). -/
def scenarioC6Recs : List RawRecord :=
  [mkRaw "Bayern" (marchDay 1) 10, mkRaw "Bayern" (marchDay 2) 15,
   mkRaw "Bayern" (marchDay 3) 30]

/-- C6: on the Bayern scenario records with threshold 50 the aggregation
yields cumulative counts [10, 25, 55], threshold date 2020-03-03, and
days-since-threshold [-2, -1, 0]. -/
theorem prepare_daily_infections_scenario :
    prepare_daily_infections scenarioC6Recs 50 =
      [{ Bundesland := "Bayern", Meldedatum := marchDay 1, Neuinfektionen := 10,
         infections_cumulative := 10, date_n_cases := marchDay 3,
         days_since_n_cases := -2 },
       { Bundesland := "Bayern", Meldedatum := marchDay 2, Neuinfektionen := 15,
         infections_cumulative := 25, date_n_cases := marchDay 3,
         days_since_n_cases := -1 },
       { Bundesland := "Bayern", Meldedatum := marchDay 3, Neuinfektionen := 30,
         infections_cumulative := 55, date_n_cases := marchDay 3,
         days_since_n_cases := 0 }] := by
  decide

/-- A region that never reaches 50 cumulative cases. -/
def belowThresholdRecs : List RawRecord :=
  [mkRaw "Bremen" (marchDay 1) 10, mkRaw "Bremen" (marchDay 2) 5]

/-- C1 counterexample: a region whose cumulative count never reaches the
threshold loses all of its rows in `prepare_daily_infections` (the merge at
data.py line 228 is an inner join), although its daily series is non-empty —
the claim that such rows are retained with a null days-since value fails. -/
theorem below_threshold_rows_dropped :
    prepare_daily_infections belowThresholdRecs 50 = [] ∧
      daily_cases belowThresholdRecs ≠ [] := by
  exact ⟨by decide, by decide⟩

@[simp] theorem mkDaysRow_Bundesland (x : DailyRow) (t : Nat) :
    (mkDaysRow x t).Bundesland = x.Bundesland := rfl

/-- The threshold join, restricted to one region's rows, when the region has
no threshold date: all of its rows vanish.  (`rows` fixes the table threshold
dates are computed from; `l` generalizes the traversed list.) -/
theorem add_days_filter_region_none (rows : List DailyRow) (n_cases : Int) (r : String)
    (l : List DailyRow) (h : date_n_cases_of rows r n_cases = none) :
    (l.filterMap (fun x =>
        (date_n_cases_of rows x.Bundesland n_cases).map (fun t => mkDaysRow x t))).filter
        (fun y => y.Bundesland = r) = [] := by
  induction l with
  | nil => simp
  | cons x l ih =>
    simp only [List.filterMap_cons]
    by_cases hx : x.Bundesland = r
    · rw [hx, h]
      simpa using ih
    · cases h2 : date_n_cases_of rows x.Bundesland n_cases with
      | none => simpa using ih
      | some t =>
        simp only [Option.map_some', List.filter_cons, mkDaysRow_Bundesland]
        simpa [hx] using ih

/-- The threshold join, restricted to one region's rows, when the region has
threshold date `t`: every row of the region survives, in order, carrying `t`
and the signed day count. -/
theorem add_days_filter_region_some (rows : List DailyRow) (n_cases : Int) (r : String)
    (t : Nat) (l : List DailyRow) (h : date_n_cases_of rows r n_cases = some t) :
    (l.filterMap (fun x =>
        (date_n_cases_of rows x.Bundesland n_cases).map (fun t => mkDaysRow x t))).filter
        (fun y => y.Bundesland = r) =
      (l.filter (fun x => x.Bundesland = r)).map (fun x => mkDaysRow x t) := by
  induction l with
  | nil => simp
  | cons x l ih =>
    simp only [List.filterMap_cons, List.filter_cons]
    by_cases hx : x.Bundesland = r
    · rw [hx, h]
      simp only [Option.map_some', List.filter_cons, mkDaysRow_Bundesland, hx]
      simpa using ih
    · cases h2 : date_n_cases_of rows x.Bundesland n_cases with
      | none => simpa [hx] using ih
      | some t2 =>
        simp only [Option.map_some', List.filter_cons, mkDaysRow_Bundesland]
        simpa [hx] using ih

/-- C1 (amended): the threshold-date join is an inner join; a region whose
cumulative count never reaches the threshold has ALL of its rows dropped from
the aggregation's output (not retained with a null days-since value), while a
region that does reach it keeps every one of its rows — including the early
ones, whose day count is negative (`mkDaysRow` attaches
`Meldedatum - threshold date`). -/
theorem threshold_join_drops_regions_below_threshold (recs : List RawRecord)
    (n_cases : Int) (r : String) :
    (date_n_cases_of (daily_cases recs) r n_cases = none →
        (prepare_daily_infections recs n_cases).filter (fun y => y.Bundesland = r) = []) ∧
      (∀ t, date_n_cases_of (daily_cases recs) r n_cases = some t →
        (prepare_daily_infections recs n_cases).filter (fun y => y.Bundesland = r) =
          ((daily_cases recs).filter (fun x => x.Bundesland = r)).map
            (fun x => mkDaysRow x t)) := by
  constructor
  · intro h
    exact add_days_filter_region_none (daily_cases recs) n_cases r (daily_cases recs) h
  · intro t h
    exact add_days_filter_region_some (daily_cases recs) n_cases r t (daily_cases recs) h

/-- C1 witness: the Bremen records never reach 50 and lose both rows; the
Bayern scenario region reaches 50 on 2020-03-03 and keeps all three rows. -/
theorem threshold_join_drops_regions_below_threshold_w :
    (prepare_daily_infections belowThresholdRecs 50).filter
        (fun y => y.Bundesland = "Bremen") = [] ∧
      (prepare_daily_infections scenarioC6Recs 50).filter
          (fun y => y.Bundesland = "Bayern") =
        ((daily_cases scenarioC6Recs).filter (fun x => x.Bundesland = "Bayern")).map
          (fun x => mkDaysRow x (marchDay 3)) := by
  constructor
  · exact (threshold_join_drops_regions_below_threshold belowThresholdRecs 50 "Bremen").1
      (by decide)
  · exact (threshold_join_drops_regions_below_threshold scenarioC6Recs 50 "Bayern").2
      (marchDay 3) (by decide)

/-- Every row built by `cum_rows r` carries region `r`. -/
theorem cum_rows_Bundesland (r : String) :
    ∀ (l : List (Nat × Int)) (acc : Int), ∀ y ∈ cum_rows r acc l, y.Bundesland = r := by
  intro l
  induction l with
  | nil => intro acc y hy; cases hy
  | cons p l ih =>
    intro acc y hy
    obtain ⟨d, s⟩ := p
    rcases List.mem_cons.mp hy with h | h
    · rw [h]
    · exact ih (acc + s) y h

/-- Every row of `regionSeries recs r` carries region `r`. -/
theorem regionSeries_Bundesland (recs : List RawRecord) (r : String) :
    ∀ y ∈ regionSeries recs r, y.Bundesland = r := by
  intro y hy
  exact cum_rows_Bundesland r _ 0 y hy

/-- The region list of the daily aggregation has no duplicates. -/
theorem regionsOf_nodup (recs : List RawRecord) : (regionsOf recs).Nodup := by
  have h := List.perm_insertionSort (fun a b : String => a ≤ b)
    ((recs.map (fun x => x.Bundesland)).dedup)
  exact h.nodup_iff.mpr (List.nodup_dedup _)

/-- Restricting a concatenation of per-region daily series to one region
picks out exactly that region's block (or nothing). -/
theorem flatMap_regionSeries_filter (recs : List RawRecord) (r : String) :
    ∀ (L : List String), L.Nodup →
      ((L.flatMap (fun a => regionSeries recs a)).filter (fun y => y.Bundesland = r)) =
        (if r ∈ L then regionSeries recs r else []) := by
  intro L
  induction L with
  | nil => intro _; simp
  | cons a L ih =>
    intro hL
    rcases List.nodup_cons.mp hL with ⟨ha, hL'⟩
    rw [List.flatMap_cons, List.filter_append, ih hL']
    by_cases har : a = r
    · subst har
      have h1 : (regionSeries recs a).filter (fun y => y.Bundesland = a) =
          regionSeries recs a := by
        apply List.filter_eq_self.mpr
        intro y hy
        simp [regionSeries_Bundesland recs a y hy]
      simp [h1, ha]
    · have h1 : (regionSeries recs a).filter (fun y => y.Bundesland = r) = [] := by
        apply List.filter_eq_nil_iff.mpr
        intro y hy
        simp [regionSeries_Bundesland recs a y hy, har]
      rw [h1, List.nil_append]
      have hra : r ≠ a := fun h => har h.symm
      have hmem : (r ∈ a :: L) ↔ (r ∈ L) := by
        simp [List.mem_cons, hra]
      simp [hmem]

/-- Restricting the daily table to one region yields that region's series. -/
theorem daily_cases_filter_region (recs : List RawRecord) (r : String) :
    (daily_cases recs).filter (fun y => y.Bundesland = r) =
      (if r ∈ regionsOf recs then regionSeries recs r else []) :=
  flatMap_regionSeries_filter recs r (regionsOf recs) (regionsOf_nodup recs)

/-- `cum_rows` reproduces exactly the day sums it was given. -/
theorem cum_rows_map_neu (r : String) :
    ∀ (l : List (Nat × Int)) (acc : Int),
      (cum_rows r acc l).map (fun y => y.Neuinfektionen) = l.map (fun p => p.2) := by
  intro l
  induction l with
  | nil => intro _; rfl
  | cons p l ih =>
    intro acc
    obtain ⟨d, s⟩ := p
    simp [cum_rows, ih]

/-- Sums distribute over a pointwise addition under `map`. -/
theorem sum_map_add_int {α : Type} (l : List α) (f g : α → Int) :
    (l.map (fun a => f a + g a)).sum = (l.map f).sum + (l.map g).sum := by
  induction l with
  | nil => simp
  | cons a l ih =>
    simp only [List.map_cons, List.sum_cons, ih]
    ring

/-- Summing an indicator over a duplicate-free list containing the marked
element yields the value exactly once. -/
theorem sum_map_ite_eq (v : Int) (d : Nat) :
    ∀ (ds : List Nat), ds.Nodup → d ∈ ds →
      (ds.map (fun e => if d = e then v else 0)).sum = v := by
  intro ds
  induction ds with
  | nil => intro _ h; cases h
  | cons a ds ih =>
    intro hnd hd
    rcases List.nodup_cons.mp hnd with ⟨ha, hnd'⟩
    by_cases h : d = a
    · subst h
      have hz : (ds.map (fun e => if d = e then v else 0)).sum = 0 := by
        apply List.sum_eq_zero
        intro x hx
        obtain ⟨e, he, rfl⟩ := List.mem_map.mp hx
        have hde : d ≠ e := fun hde => ha (hde ▸ he)
        simp [hde]
      simp [hz]
    · have hd' : d ∈ ds := by
        rcases List.mem_cons.mp hd with h1 | h1
        · exact absurd h1 h
        · exact h1
      simp [h, ih hnd' hd']

/-- Partitioning a record list into its day buckets and summing the buckets
conserves the total case count. -/
theorem sum_day_buckets (ds : List Nat) :
    ∀ l : List RawRecord, ds.Nodup → (∀ x ∈ l, x.Meldedatum ∈ ds) →
      (ds.map (fun d =>
          ((l.filter (fun x => x.Meldedatum = d)).map (fun x => x.Neuinfektionen)).sum)).sum =
        (l.map (fun x => x.Neuinfektionen)).sum := by
  intro l
  induction l with
  | nil => intro _ _; simp
  | cons x l ih =>
    intro hnd hmem
    have hterm : ∀ d ∈ ds,
        (((x :: l).filter (fun y => y.Meldedatum = d)).map (fun y => y.Neuinfektionen)).sum =
          (if x.Meldedatum = d then x.Neuinfektionen else 0) +
            ((l.filter (fun y => y.Meldedatum = d)).map (fun y => y.Neuinfektionen)).sum := by
      intro d _
      by_cases h : x.Meldedatum = d
      · simp [List.filter_cons, h]
      · simp [List.filter_cons, h]
    rw [List.map_congr_left hterm, sum_map_add_int,
      sum_map_ite_eq x.Neuinfektionen x.Meldedatum ds hnd (hmem x (by simp)),
      ih hnd (fun y hy => hmem y (by simp [hy]))]
    simp

/-- `daySum` is the day bucket of the region-filtered records. -/
theorem daySum_eq_filter (recs : List RawRecord) (r : String) (d : Nat) :
    daySum recs r d =
      (((recs.filter (fun x => x.Bundesland = r)).filter
          (fun x => x.Meldedatum = d)).map (fun x => x.Neuinfektionen)).sum := by
  rw [daySum, List.filter_filter]
  have h : ∀ x ∈ recs, (decide (x.Bundesland = r ∧ x.Meldedatum = d)) =
      (decide (x.Meldedatum = d) && decide (x.Bundesland = r)) := by
    intro x _
    simp [Bool.and_comm]
  rw [List.filter_congr h]

/-- C5: summing a region's daily new-case sums over the bucketing step's
output equals the sum of all raw records of that region (total conservation,
independent of the sign of the raw values). -/
theorem bucketing_conserves_region_totals (recs : List RawRecord) (r : String) :
    (((daily_cases recs).filter (fun y => y.Bundesland = r)).map
        (fun y => y.Neuinfektionen)).sum =
      ((recs.filter (fun x => x.Bundesland = r)).map (fun x => x.Neuinfektionen)).sum := by
  rw [daily_cases_filter_region]
  by_cases hr : r ∈ regionsOf recs
  · rw [if_pos hr]
    have hmap : (regionSeries recs r).map (fun y => y.Neuinfektionen) =
        (datesOf recs r).map (fun d => daySum recs r d) := by
      rw [regionSeries, cum_rows_map_neu, List.map_map]
      rfl
    rw [hmap]
    have hperm : List.Perm ((datesOf recs r).map (fun d => daySum recs r d))
        ((((recs.filter (fun x => x.Bundesland = r)).map (fun x => x.Meldedatum)).dedup).map
          (fun d => daySum recs r d)) :=
      (List.perm_insertionSort _ _).map _
    rw [hperm.sum_eq]
    rw [List.map_congr_left (fun d _ => daySum_eq_filter recs r d)]
    exact sum_day_buckets _ _ (List.nodup_dedup _)
      (fun x hx => List.mem_dedup.mpr (List.mem_map_of_mem _ hx))
  · rw [if_neg hr]
    have hfil : recs.filter (fun x => x.Bundesland = r) = [] := by
      apply List.filter_eq_nil_iff.mpr
      intro x hx hxr
      have hxr2 : x.Bundesland = r := by simpa using hxr
      apply hr
      rw [regionsOf, List.mem_insertionSort]
      refine List.mem_dedup.mpr ?_
      have := List.mem_map_of_mem (fun y : RawRecord => y.Bundesland) hx
      simpa [hxr2] using this
    simp [hfil]

/-- Day-bucket sums are non-negative when all raw values are. -/
theorem daySum_nonneg (recs : List RawRecord) (h : ∀ x ∈ recs, 0 ≤ x.Neuinfektionen)
    (r : String) (d : Nat) : 0 ≤ daySum recs r d := by
  apply List.sum_nonneg
  intro a ha
  obtain ⟨x, hx, rfl⟩ := List.mem_map.mp ha
  exact h x (List.mem_of_mem_filter hx)

/-- With non-negative day sums the running totals built by `cum_rows` never
decrease. -/
theorem cum_rows_chain (r : String) :
    ∀ l : List (Nat × Int), (∀ p ∈ l, 0 ≤ p.2) → ∀ acc : Int,
      ((cum_rows r acc l).map (fun y => y.infections_cumulative)).Chain' (· ≤ ·) := by
  intro l
  induction l with
  | nil => intro _ acc; simp [cum_rows]
  | cons p l ih =>
    intro hp acc
    obtain ⟨d, s⟩ := p
    cases l with
    | nil => simp [cum_rows]
    | cons q l2 =>
      obtain ⟨d2, s2⟩ := q
      simp only [cum_rows, List.map_cons]
      rw [List.chain'_cons]
      constructor
      · have hs2 : (0 : Int) ≤ s2 := hp (d2, s2) (by simp)
        omega
      · have := ih (fun q hq => hp q (List.mem_cons_of_mem _ hq)) (acc + s)
        simpa [cum_rows, List.map_cons] using this

/-- The C4 counterexample input: a raw negative case correction after the
region reached the threshold. -/
def negCorrectionRecs : List RawRecord :=
  [mkRaw "Hamburg" (marchDay 1) 60, mkRaw "Hamburg" (marchDay 2) (-3)]

/-- C4 counterexample: with a raw record carrying a negative case count (the
remote feed's `AnzahlFall` is a plain integer and the code never clamps it),
Hamburg's cumulative series in the aggregation's output is [60, 57], which is
not non-decreasing — the claim fails as stated. -/
theorem cumulative_cases_can_decrease :
    (((prepare_daily_infections negCorrectionRecs 50).filter
          (fun y => y.Bundesland = "Hamburg")).map
        (fun y => y.infections_cumulative)) = [60, 57] ∧
      ¬ ((((prepare_daily_infections negCorrectionRecs 50).filter
            (fun y => y.Bundesland = "Hamburg")).map
          (fun y => y.infections_cumulative)).Chain' (· ≤ ·)) := by
  have h1 : (((prepare_daily_infections negCorrectionRecs 50).filter
        (fun y => y.Bundesland = "Hamburg")).map
      (fun y => y.infections_cumulative)) = [(60 : Int), 57] := by decide
  refine ⟨h1, ?_⟩
  rw [h1]
  intro hc
  rcases List.chain'_cons.mp hc with ⟨hle, _⟩
  omega

/-- C4 (amended): provided every raw record's new-case value is non-negative,
each region's cumulative series in the aggregation's output, read in
ascending date order, is non-decreasing. -/
theorem cumulative_cases_nondecreasing (recs : List RawRecord) (n_cases : Int)
    (r : String) (h : ∀ x ∈ recs, 0 ≤ x.Neuinfektionen) :
    (((prepare_daily_infections recs n_cases).filter (fun y => y.Bundesland = r)).map
        (fun y => y.infections_cumulative)).Chain' (· ≤ ·) := by
  rw [prepare_daily_infections]
  cases hdt : date_n_cases_of (daily_cases recs) r n_cases with
  | none =>
    rw [add_days_since_n_cases, add_days_filter_region_none _ _ _ _ hdt]
    simp
  | some t =>
    rw [add_days_since_n_cases, add_days_filter_region_some _ _ _ _ _ hdt]
    rw [List.map_map]
    have hcomp : ((fun y : DaysRow => y.infections_cumulative) ∘ fun x => mkDaysRow x t) =
        (fun x : DailyRow => x.infections_cumulative) := rfl
    rw [hcomp, daily_cases_filter_region]
    by_cases hr : r ∈ regionsOf recs
    · rw [if_pos hr, regionSeries]
      apply cum_rows_chain
      intro p hp
      obtain ⟨d, hd, rfl⟩ := List.mem_map.mp hp
      exact daySum_nonneg recs h r d
    · rw [if_neg hr]
      simp

/-- C4 witness: the theorem applied to the Bayern scenario records. -/
theorem cumulative_cases_nondecreasing_w :
    (((prepare_daily_infections scenarioC6Recs 50).filter
        (fun y => y.Bundesland = "Bayern")).map
      (fun y => y.infections_cumulative)).Chain' (· ≤ ·) :=
  cumulative_cases_nondecreasing scenarioC6Recs 50 "Bayern" (by decide)

/-- One row of `add_measures`' output: a threshold-joined daily row plus the
left-joined measures label, `none` when the day has no measure (the pandas
left merge leaves `NaN` there). -/
structure MeasuresRow where
  Bundesland : String
  Meldedatum : Nat
  Neuinfektionen : Int
  infections_cumulative : Int
  date_n_cases : Nat
  days_since_n_cases : Int
  Massnahmen : Option String
deriving DecidableEq, Repr

/-- Python's `" und ".join` over a list of strings. -/
def und_join : List String → String
  | [] => ""
  | [s] => s
  | s :: rest => s ++ " und " ++ und_join rest

/-- The concatenated label of the measures sharing `(region, effective-from
day)`: the groupby-agg at data.py lines 157-158, preserving the group's
original row order. -/
def measures_label (measures : List MeasureRecord) (r : String) (d : Nat) : String :=
  und_join ((measures.filter (fun m => m.Bundesland = r ∧ m.gueltig_ab = d)).map
    (fun m => m.Massnahme))

/-- The `sort_values(["Bundesland", "Meldedatum"])` ordering of joined rows
(data.py line 164). -/
def mLe (x y : MeasuresRow) : Prop :=
  x.Bundesland < y.Bundesland ∨ (x.Bundesland = y.Bundesland ∧ x.Meldedatum ≤ y.Meldedatum)

instance : DecidableRel mLe := fun x y =>
  if heq : x.Bundesland = y.Bundesland then
    if hle : x.Meldedatum ≤ y.Meldedatum then
      isTrue (Or.inr ⟨heq, hle⟩)
    else
      isFalse (fun h => by
        rcases h with h | ⟨-, h⟩
        · exact absurd heq (ne_of_lt h)
        · exact hle h)
  else
    if hlt : x.Bundesland < y.Bundesland then
      isTrue (Or.inl hlt)
    else
      isFalse (fun h => by
        rcases h with h | ⟨h, -⟩
        · exact hlt h
        · exact heq h)

/-- The row `add_measures` builds for one daily row: the left join by
`(region, date)` attaches the group label when the day has measures. -/
def mkMeasuresRow (measures : List MeasureRecord) (x : DaysRow) : MeasuresRow :=
  { Bundesland := x.Bundesland, Meldedatum := x.Meldedatum,
    Neuinfektionen := x.Neuinfektionen,
    infections_cumulative := x.infections_cumulative,
    date_n_cases := x.date_n_cases, days_since_n_cases := x.days_since_n_cases,
    Massnahmen :=
      if measures.any (fun m => m.Bundesland = x.Bundesland ∧ m.gueltig_ab = x.Meldedatum)
      then some (measures_label measures x.Bundesland x.Meldedatum)
      else none }

/-- `add_measures` (data.py lines 154-166): left-join the grouped measure
labels onto the daily series by `(region, date)`, then sort by region and
date. -/
def add_measures (rows : List DaysRow) (measures : List MeasureRecord) : List MeasuresRow :=
  List.insertionSort mLe (rows.map (fun x => mkMeasuresRow measures x))

/-- Python `str.split(sep)` for a non-empty separator, on character lists:
scan left to right, cutting at every occurrence of `sep`.  The `fuel`
argument (instantiated with the string length plus one, an upper bound on the
number of steps) only makes the recursion structural. -/
def py_split_aux (sep : List Char) : Nat → List Char → List Char → List (List Char)
  | 0, l, acc => [acc.reverse ++ l]
  | fuel + 1, l, acc =>
    match l with
    | [] => [acc.reverse]
    | c :: rest =>
      if sep.isPrefixOf l then
        acc.reverse :: py_split_aux sep fuel (l.drop sep.length) []
      else
        py_split_aux sep fuel rest (c :: acc)

/-- Python `s.split(sep)`. -/
def py_split (s sep : String) : List String :=
  (py_split_aux sep.toList (s.toList.length + 1) s.toList []).map (fun cs => String.mk cs)

/-- The `num_measures` column (data.py lines 65-67): Python
`len(x.split("und"))` on the measures string — a split on the SUBSTRING
`"und"`, not on the `" und "` connector — and 0 when the value is not a
string (`NaN`). -/
def num_measures (x : MeasuresRow) : Nat :=
  match x.Massnahmen with
  | some s => (py_split s "und").length
  | none => 0

/-- Raw records putting Bayern above the threshold before 2020-03-16. -/
def scenarioC3Recs : List RawRecord :=
  [mkRaw "Bayern" (marchDay 15) 60, mkRaw "Bayern" (marchDay 16) 20]

/-- The C3 scenario measures: two rows sharing (Bayern, 2020-03-16). -/
def scenarioC3Measures : List MeasureRecord :=
  [{ Bundesland := "Bayern", Massnahme := "Schulschließung", datum_publ := marchDay 14,
     gueltig_ab := marchDay 16, gueltig_bis := none, beschreibung := "a" },
   { Bundesland := "Bayern", Massnahme := "Ausgangssperre", datum_publ := marchDay 14,
     gueltig_ab := marchDay 16, gueltig_bis := none, beschreibung := "b" }]

/-- A single measure whose category contains `"und"` as a substring. -/
def grundschuleMeasures : List MeasureRecord :=
  [{ Bundesland := "Bayern", Massnahme := "Grundschulschließung", datum_publ := marchDay 14,
     gueltig_ab := marchDay 16, gueltig_bis := none, beschreibung := "a" }]

/-- C3 counterexample: one single measure ("Grundschulschließung", whose name
contains the substring "und") is active on 2020-03-16, yet the joined row's
`num_measures` is 2, not 1 — the code splits on the substring `"und"`, so
`num_measures` does not always equal the number of measures of the day. -/
theorem num_measures_miscounts_und_substring :
    grundschuleMeasures.length = 1 ∧
      ((add_measures (prepare_daily_infections scenarioC3Recs 50) grundschuleMeasures).filter
          (fun y => y.Meldedatum = marchDay 16)).map
        (fun y => (y.Massnahmen, num_measures y)) =
      [(some "Grundschulschließung", 2)] := by
  exact ⟨rfl, by decide⟩

/-- C3 (amended): `num_measures` is the number of chunks obtained by
splitting the measures string on the substring `"und"` (0 when the day has no
measures), which equals the number of measures sharing the day only when no
category name contains `"und"`; in particular the claimed scenario holds: the
two measures sharing (Bayern, 2020-03-16) yield the joined string
"Schulschließung und Ausgangssperre" with `num_measures` = 2, and a day
without measures gets `num_measures` = 0. -/
theorem measures_join_scenario :
    ((add_measures (prepare_daily_infections scenarioC3Recs 50) scenarioC3Measures).filter
          (fun y => y.Meldedatum = marchDay 16)).map
        (fun y => (y.Massnahmen, num_measures y)) =
      [(some "Schulschließung und Ausgangssperre", 2)] ∧
      ((add_measures (prepare_daily_infections scenarioC3Recs 50) scenarioC3Measures).filter
          (fun y => y.Meldedatum = marchDay 15)).map
        (fun y => (y.Massnahmen, num_measures y)) =
      [(none, 0)] := by
  exact ⟨by decide, by decide⟩

/-- The infection-side unified rows: `self.infections` in `PlotData.get_df`
(data.py lines 38-46), the table the growth columns are computed on. -/
def unified_infection_rows (recs : List RawRecord) (measures : List MeasureRecord)
    (n_cases : Int) : List MeasuresRow :=
  add_measures (prepare_daily_infections recs n_cases) measures

/-- Strict lexicographic order on `(region, day)` keys. -/
def keyLt (a b : String × Nat) : Prop :=
  a.1 < b.1 ∨ (a.1 = b.1 ∧ a.2 < b.2)

theorem keyLt_asymm {a b : String × Nat} (h1 : keyLt a b) (h2 : keyLt b a) : False := by
  rcases h1 with h1 | ⟨e1, h1⟩ <;> rcases h2 with h2 | ⟨e2, h2⟩
  · exact absurd h2 (lt_asymm h1)
  · rw [e2] at h1; exact lt_irrefl _ h1
  · rw [e1] at h2; exact lt_irrefl _ h2
  · exact absurd h2 (lt_asymm h1)

@[simp] theorem mkDaysRow_Meldedatum (x : DailyRow) (t : Nat) :
    (mkDaysRow x t).Meldedatum = x.Meldedatum := rfl

@[simp] theorem mkMeasuresRow_Bundesland (ms : List MeasureRecord) (x : DaysRow) :
    (mkMeasuresRow ms x).Bundesland = x.Bundesland := rfl

@[simp] theorem mkMeasuresRow_Meldedatum (ms : List MeasureRecord) (x : DaysRow) :
    (mkMeasuresRow ms x).Meldedatum = x.Meldedatum := rfl

/-- `cum_rows` keeps the day of each pair it is given. -/
theorem cum_rows_map_date (r : String) :
    ∀ (l : List (Nat × Int)) (acc : Int),
      (cum_rows r acc l).map (fun y => y.Meldedatum) = l.map (fun p => p.1) := by
  intro l
  induction l with
  | nil => intro _; rfl
  | cons p l ih =>
    intro acc
    obtain ⟨d, s⟩ := p
    simp [cum_rows, ih]

/-- The region list of the daily aggregation is strictly increasing. -/
theorem regionsOf_pairwise (recs : List RawRecord) :
    (regionsOf recs).Pairwise (· < ·) := by
  have hs : (regionsOf recs).Pairwise (fun a b : String => a ≤ b) :=
    List.sorted_insertionSort _ _
  have hn : (regionsOf recs).Nodup := regionsOf_nodup recs
  exact (hs.and hn).imp (fun h => lt_of_le_of_ne h.1 h.2)

/-- The date list of one region is strictly increasing. -/
theorem datesOf_pairwise (recs : List RawRecord) (r : String) :
    (datesOf recs r).Pairwise (· < ·) := by
  have hs : (datesOf recs r).Pairwise (fun a b : Nat => a ≤ b) :=
    List.sorted_insertionSort _ _
  have hn : (datesOf recs r).Nodup :=
    (List.perm_insertionSort _ _).nodup_iff.mpr (List.nodup_dedup _)
  exact (hs.and hn).imp (fun h => lt_of_le_of_ne h.1 h.2)

/-- The dates of a region's series are `datesOf`. -/
theorem regionSeries_map_date (recs : List RawRecord) (r : String) :
    (regionSeries recs r).map (fun y => y.Meldedatum) = datesOf recs r := by
  rw [regionSeries, cum_rows_map_date, List.map_map]
  show (datesOf recs r).map (fun d => d) = datesOf recs r
  exact List.map_id' _

/-- The daily table is strictly sorted by (region, date). -/
theorem daily_cases_pairwise (recs : List RawRecord) :
    (daily_cases recs).Pairwise
      (fun x y => keyLt (x.Bundesland, x.Meldedatum) (y.Bundesland, y.Meldedatum)) := by
  rw [daily_cases]
  apply List.pairwise_flatMap.mpr
  constructor
  · intro r _
    have hdates : (regionSeries recs r).Pairwise
        (fun x y => x.Meldedatum < y.Meldedatum) := by
      have h := datesOf_pairwise recs r
      rw [← regionSeries_map_date recs r] at h
      exact List.pairwise_map.mp h
    apply List.Pairwise.imp_of_mem ?_ hdates
    intro a b ha hb hlt
    right
    exact ⟨by rw [regionSeries_Bundesland recs r a ha, regionSeries_Bundesland recs r b hb],
      hlt⟩
  · apply (regionsOf_pairwise recs).imp
    intro r1 r2 hlt x hx y hy
    left
    rw [regionSeries_Bundesland recs r1 x hx, regionSeries_Bundesland recs r2 y hy]
    exact hlt

/-- The threshold join preserves the strict (region, date) sortedness. -/
theorem prepare_daily_pairwise (recs : List RawRecord) (n_cases : Int) :
    (prepare_daily_infections recs n_cases).Pairwise
      (fun x y => keyLt (x.Bundesland, x.Meldedatum) (y.Bundesland, y.Meldedatum)) := by
  rw [prepare_daily_infections, add_days_since_n_cases]
  apply List.Pairwise.filterMap _ ?_ (daily_cases_pairwise recs)
  intro a a' h b hb b' hb'
  rcases Option.map_eq_some'.mp hb with ⟨t, _, rfl⟩
  rcases Option.map_eq_some'.mp hb' with ⟨t', _, rfl⟩
  simpa using h

/-- The unified infection rows are strictly sorted by (region, date): the
input of the sort at data.py line 164 is already sorted, so the sort is the
identity. -/
theorem unified_infection_rows_pairwise (recs : List RawRecord)
    (measures : List MeasureRecord) (n_cases : Int) :
    (unified_infection_rows recs measures n_cases).Pairwise
      (fun x y => keyLt (x.Bundesland, x.Meldedatum) (y.Bundesland, y.Meldedatum)) := by
  rw [unified_infection_rows, add_measures]
  have hmap : ((prepare_daily_infections recs n_cases).map
      (fun x => mkMeasuresRow measures x)).Pairwise
        (fun x y => keyLt (x.Bundesland, x.Meldedatum) (y.Bundesland, y.Meldedatum)) := by
    apply List.pairwise_map.mpr
    apply (prepare_daily_pairwise recs n_cases).imp
    intro a b h
    simpa using h
  have hsorted : List.Sorted mLe ((prepare_daily_infections recs n_cases).map
      (fun x => mkMeasuresRow measures x)) := by
    apply hmap.imp
    intro a b h
    rcases h with h | ⟨heq, hlt⟩
    · exact Or.inl h
    · exact Or.inr ⟨heq, Nat.le_of_lt hlt⟩
  rw [hsorted.insertionSort_eq]
  exact hmap

/-- `df["infections_cumulative"].shift()` (data.py line 69): a GLOBAL shift by
one row over the whole sorted frame, regardless of region boundaries. -/
def shifted_cumulative (rows : List MeasuresRow) : Nat → Option Int
  | 0 => none
  | k + 1 => (rows[k]?).map (fun p => p.infections_cumulative)

/-- The `absolute_growth` column (data.py lines 59-61):
`groupby("Bundesland")["infections_cumulative"].transform(lambda s: s.diff())`
— the difference with the previous row of the SAME region in frame order,
`NaN` (`none`) on each region's first row. -/
def absolute_growth (rows : List MeasuresRow) (i : Nat) : Option Int :=
  match rows[i]? with
  | none => none
  | some x =>
    (((rows.take i).filter (fun p => p.Bundesland = x.Bundesland)).getLast?).map
      (fun p => x.infections_cumulative - p.infections_cumulative)

/-- The `relative_growth` column (data.py lines 68-69):
`absolute_growth / infections_cumulative.shift()`; a `NaN` operand makes the
result `NaN` (`none`). -/
def relative_growth (rows : List MeasuresRow) (i : Nat) : Option ℚ :=
  match absolute_growth rows i, shifted_cumulative rows i with
  | some a, some p => some ((a : ℚ) / (p : ℚ))
  | _, _ => none

/-- On the first row of a region both growth columns are `none`: the
per-group diff has no predecessor, and the `NaN` numerator also nullifies the
globally-shifted quotient. -/
theorem growth_none_of_first_of_region (rows : List MeasuresRow) (i : Nat)
    (x : MeasuresRow) (hx : rows[i]? = some x)
    (hfirst : ∀ j, j < i → ∀ q, rows[j]? = some q → q.Bundesland ≠ x.Bundesland) :
    absolute_growth rows i = none ∧ relative_growth rows i = none := by
  have habs : absolute_growth rows i = none := by
    have hfil : (rows.take i).filter (fun p => p.Bundesland = x.Bundesland) = [] := by
      apply List.filter_eq_nil_iff.mpr
      intro p hp hpb
      have hpb2 : p.Bundesland = x.Bundesland := by simpa using hpb
      obtain ⟨j, hj⟩ := List.mem_iff_getElem?.mp hp
      have hjlt : j < i := by
        by_contra hge
        have hnone : (rows.take i)[j]? = none := by
          apply List.getElem?_eq_none
          calc (rows.take i).length ≤ i := by
                rw [List.length_take]
                exact min_le_left _ _
            _ ≤ j := Nat.le_of_not_lt hge
        rw [hnone] at hj
        cases hj
      rw [List.getElem?_take_of_lt hjlt] at hj
      exact hfirst j hjlt p hj hpb2
    simp [absolute_growth, hx, hfil]
  refine ⟨habs, ?_⟩
  simp [relative_growth, habs]

/-- On a strictly (region, date)-sorted frame, a row that is not the first of
its region takes its growth values from the immediately preceding row, which
IS the same region's previous date: the per-group diff sees it as the group
predecessor, and the global shift of the denominator lands on it as well, so
neither column ever combines two regions. -/
theorem growth_within_region_sorted (rows : List MeasuresRow)
    (hsorted : rows.Pairwise
      (fun x y => keyLt (x.Bundesland, x.Meldedatum) (y.Bundesland, y.Meldedatum)))
    (k : Nat) (x p : MeasuresRow) (hx : rows[k + 1]? = some x) (hp : rows[k]? = some p)
    (hsame : ∃ j q, j < k + 1 ∧ rows[j]? = some q ∧ q.Bundesland = x.Bundesland) :
    p.Bundesland = x.Bundesland ∧ p.Meldedatum < x.Meldedatum ∧
      (∀ j q, j < k + 1 → rows[j]? = some q → q.Bundesland = x.Bundesland →
        q.Meldedatum ≤ p.Meldedatum) ∧
      absolute_growth rows (k + 1) =
        some (x.infections_cumulative - p.infections_cumulative) ∧
      relative_growth rows (k + 1) =
        some (((x.infections_cumulative - p.infections_cumulative : Int) : ℚ) /
          (p.infections_cumulative : ℚ)) := by
  obtain ⟨hxlen, hxe⟩ := List.getElem?_eq_some_iff.mp hx
  obtain ⟨hplen, hpe⟩ := List.getElem?_eq_some_iff.mp hp
  have hpw := List.pairwise_iff_getElem.mp hsorted
  have hpx : p.Bundesland < x.Bundesland ∨
      (p.Bundesland = x.Bundesland ∧ p.Meldedatum < x.Meldedatum) := by
    have h := hpw k (k + 1) hplen hxlen (Nat.lt_succ_self k)
    rw [hpe, hxe] at h
    simpa [keyLt] using h
  have hpb : p.Bundesland = x.Bundesland := by
    by_contra hne
    obtain ⟨j, q, hj, hq, hqb⟩ := hsame
    have hjk : j ≤ k := Nat.lt_succ_iff.mp hj
    rcases eq_or_lt_of_le hjk with hjeq | hjlt
    · have hqp : q = p := by
        subst hjeq
        exact Option.some.inj (hq.symm.trans hp)
      rw [hqp] at hqb
      exact hne hqb
    · obtain ⟨hqlen, hqe⟩ := List.getElem?_eq_some_iff.mp hq
      have h1 : q.Bundesland < p.Bundesland ∨
          (q.Bundesland = p.Bundesland ∧ q.Meldedatum < p.Meldedatum) := by
        have h := hpw j k hqlen hplen hjlt
        rw [hqe, hpe] at h
        simpa [keyLt] using h
      rcases h1 with h1 | ⟨h1e, _⟩
      · rcases hpx with h2 | ⟨h2e, _⟩
        · rw [hqb] at h1
          exact absurd h2 (lt_asymm h1)
        · exact hne h2e
      · rw [h1e] at hqb
        exact hne hqb
  have hdt : p.Meldedatum < x.Meldedatum := by
    rcases hpx with h | ⟨_, h⟩
    · rw [hpb] at h
      exact absurd h (lt_irrefl _)
    · exact h
  have hprev : ∀ j q, j < k + 1 → rows[j]? = some q → q.Bundesland = x.Bundesland →
      q.Meldedatum ≤ p.Meldedatum := by
    intro j q hj hq hqb
    have hjk : j ≤ k := Nat.lt_succ_iff.mp hj
    rcases eq_or_lt_of_le hjk with hjeq | hjlt
    · have hqp : q = p := by
        subst hjeq
        exact Option.some.inj (hq.symm.trans hp)
      rw [hqp]
    · obtain ⟨hqlen, hqe⟩ := List.getElem?_eq_some_iff.mp hq
      have h1 : q.Bundesland < p.Bundesland ∨
          (q.Bundesland = p.Bundesland ∧ q.Meldedatum < p.Meldedatum) := by
        have h := hpw j k hqlen hplen hjlt
        rw [hqe, hpe] at h
        simpa [keyLt] using h
      rcases h1 with h1 | ⟨_, h1⟩
      · rw [hqb, ← hpb] at h1
        exact absurd h1 (lt_irrefl _)
      · exact Nat.le_of_lt h1
  have htake : rows.take (k + 1) = rows.take k ++ [p] := by
    rw [List.take_succ, hp]
    rfl
  have habs : absolute_growth rows (k + 1) =
      some (x.infections_cumulative - p.infections_cumulative) := by
    have hfp : List.filter (fun q => decide (q.Bundesland = x.Bundesland)) [p] = [p] := by
      simp [hpb]
    simp [absolute_growth, hx, htake, List.filter_append, hfp, List.getLast?_concat]
  have hshift : shifted_cumulative rows (k + 1) = some p.infections_cumulative := by
    simp [shifted_cumulative, hp]
  refine ⟨hpb, hdt, hprev, habs, ?_⟩
  simp [relative_growth, habs, hshift]

/-- C7: on the unified infection rows, a row that is the first of its region
has `absolute_growth` and `relative_growth` both null; every later row of a
region takes `absolute_growth` = its cumulative count minus the previous
row's, where that previous row belongs to the SAME region and carries the
region's latest earlier date, and `relative_growth` = that difference divided
by the same previous row's cumulative count — neither column ever combines
values of two different regions. -/
theorem growth_columns_stay_within_region (recs : List RawRecord)
    (measures : List MeasureRecord) (n_cases : Int) (i : Nat) (x : MeasuresRow)
    (hx : (unified_infection_rows recs measures n_cases)[i]? = some x) :
    ((∀ j, j < i → ∀ q, (unified_infection_rows recs measures n_cases)[j]? = some q →
          q.Bundesland ≠ x.Bundesland) →
        absolute_growth (unified_infection_rows recs measures n_cases) i = none ∧
          relative_growth (unified_infection_rows recs measures n_cases) i = none) ∧
      (∀ k p, i = k + 1 →
        (unified_infection_rows recs measures n_cases)[k]? = some p →
        (∃ j q, j < i ∧ (unified_infection_rows recs measures n_cases)[j]? = some q ∧
          q.Bundesland = x.Bundesland) →
        p.Bundesland = x.Bundesland ∧ p.Meldedatum < x.Meldedatum ∧
          (∀ j q, j < i → (unified_infection_rows recs measures n_cases)[j]? = some q →
            q.Bundesland = x.Bundesland → q.Meldedatum ≤ p.Meldedatum) ∧
          absolute_growth (unified_infection_rows recs measures n_cases) i =
            some (x.infections_cumulative - p.infections_cumulative) ∧
          relative_growth (unified_infection_rows recs measures n_cases) i =
            some (((x.infections_cumulative - p.infections_cumulative : Int) : ℚ) /
              (p.infections_cumulative : ℚ))) := by
  constructor
  · intro hfirst
    exact growth_none_of_first_of_region _ i x hx hfirst
  · intro k p hik hp hsame
    subst hik
    exact growth_within_region_sorted _
      (unified_infection_rows_pairwise recs measures n_cases) k x p hx hp hsame

/-- The first unified row of the C3 scenario pipeline. -/
def wRow0 : MeasuresRow :=
  { Bundesland := "Bayern", Meldedatum := marchDay 15, Neuinfektionen := 60,
    infections_cumulative := 60, date_n_cases := marchDay 15,
    days_since_n_cases := 0, Massnahmen := none }

/-- The second unified row of the C3 scenario pipeline. -/
def wRow1 : MeasuresRow :=
  { Bundesland := "Bayern", Meldedatum := marchDay 16, Neuinfektionen := 20,
    infections_cumulative := 80, date_n_cases := marchDay 15,
    days_since_n_cases := 1, Massnahmen := some "Schulschließung und Ausgangssperre" }

/-- C7 witness: the theorem applied at rows 0 and 1 of the concrete scenario
pipeline — the region's first row has null growth columns, the second row
diffs against the first. -/
theorem growth_columns_stay_within_region_w :
    (absolute_growth (unified_infection_rows scenarioC3Recs scenarioC3Measures 50) 0 = none ∧
      relative_growth (unified_infection_rows scenarioC3Recs scenarioC3Measures 50) 0 = none) ∧
      (wRow0.Bundesland = wRow1.Bundesland ∧ wRow0.Meldedatum < wRow1.Meldedatum ∧
        (∀ j q, j < 1 →
          (unified_infection_rows scenarioC3Recs scenarioC3Measures 50)[j]? = some q →
          q.Bundesland = wRow1.Bundesland → q.Meldedatum ≤ wRow0.Meldedatum) ∧
        absolute_growth (unified_infection_rows scenarioC3Recs scenarioC3Measures 50) 1 =
          some (wRow1.infections_cumulative - wRow0.infections_cumulative) ∧
        relative_growth (unified_infection_rows scenarioC3Recs scenarioC3Measures 50) 1 =
          some (((wRow1.infections_cumulative - wRow0.infections_cumulative : Int) : ℚ) /
            (wRow0.infections_cumulative : ℚ))) := by
  constructor
  · exact (growth_columns_stay_within_region scenarioC3Recs scenarioC3Measures 50 0 wRow0
      (by decide)).1 (fun j hj => absurd hj (Nat.not_lt_zero j))
  · exact (growth_columns_stay_within_region scenarioC3Recs scenarioC3Measures 50 1 wRow1
      (by decide)).2 0 wRow0 rfl (by decide) ⟨0, wRow0, Nat.zero_lt_one, by decide, by decide⟩
